import Mathlib

/-!
Shallow embedding of `src/jukebox/mir.py` (simplified-jukemir).

Modelling conventions:
* numpy / torch floating-point arrays are modelled over `ℚ`; a 1-D array is a
  `List ℚ`, a 2-D array a `List (List ℚ)` (rows), a 3-D array a `T3`.
* External library calls (librosa `resample`, librosa `load`, the vq-vae
  `encode`, the prior's labeller / `get_y` / `get_cond` / `forward`) are black
  boxes per the design document, so they appear as explicit function
  parameters or as fields of the `Prior` structure.
* Python exceptions are modelled with `Except PyError`; note that evaluating
  `x % 0` in Python raises `ZeroDivisionError` before an `assert` on the
  result can fail, which the pooling guard reproduces.
* Filesystem effects of the batch driver are modelled by a `DriverEvent`
  trace (cache load / compute / save) plus the set of existing output names.
-/

set_option autoImplicit false

namespace Jukemir

/-- Model sample rate constant `JUKEBOX_SAMPLE_RATE = 44100` from the source. -/
def JUKEBOX_SAMPLE_RATE : ℕ := 44100

/-- Token-count constant `T = 8192` from the source. -/
def T : ℕ := 8192

/-- Fixed target sample count `SAMPLE_LENGTH = 1048576` from the source. -/
def SAMPLE_LENGTH : ℕ := 1048576

/-- Prior depth constant `DEPTH = 36` from the source. -/
def DEPTH : ℕ := 36

/-- Python exceptions that the modelled code paths can raise. -/
inductive PyError where
  | valueError (msg : String)
  | assertionError (msg : String)
  | zeroDivision
  | runtimeError
  deriving DecidableEq, Repr

/-- A numpy array that is either 1-D or 2-D (channels × samples), the only
shapes `preprocess_audio` accepts past its `ndim == 2` assertion. -/
inductive NDArray where
  | one (a : List ℚ)
  | two (a : List (List ℚ))
  deriving DecidableEq, Repr

/-- Flattening (`np.ndarray.flatten`): row-major contents as a 1-D list. -/
def NDArray.flat : NDArray → List ℚ
  | .one a => a
  | .two a => a.flatten

/-- The `if audio.ndim == 1: audio = audio[np.newaxis]` step of
`preprocess_audio`: view the array as a 2-D channels × samples list. -/
def atleast2d : NDArray → List (List ℚ)
  | .one a => [a]
  | .two a => a

/-- Channel downmix `audio.mean(axis=0)`: pointwise arithmetic mean of the
channel rows (exact over `ℚ`). -/
def downmix (chs : List (List ℚ)) : List ℚ :=
  (List.range (chs.headD []).length).map
    (fun j => (chs.map (fun row => row.getD j 0)).sum / (chs.length : ℚ))

/-- Peak absolute amplitude `np.abs(audio).max()` (with value `0` on the
empty list, which numpy instead rejects; no claim touches that case). -/
def peakAbs : List ℚ → ℚ
  | [] => 0
  | x :: xs => max |x| (peakAbs xs)

/-- Embedding of `preprocess_audio(audio, sr)`.  The librosa call
`lr.resample(audio, sr, JUKEBOX_SAMPLE_RATE)` is a black box passed in as
`resample sr`; librosa returns its input unchanged when `sr = 44100`.
After resampling: promote 1-D input to one channel, downmix channels to
mono, divide by the peak absolute value when it is positive, and flatten
(the identity on the now 1-D data). -/
def preprocess_audio (resample : ℕ → NDArray → NDArray) (audio : NDArray) (sr : ℕ) :
    NDArray :=
  let resampled := resample sr audio
  let chans := atleast2d resampled
  let mono := downmix chans
  let nf := peakAbs mono
  let normed := if 0 < nf then mono.map (fun x => x / nf) else mono
  NDArray.one normed

/-- Embedding of `audio_padding(audio, target_length)`: append
`target_length - len(audio)` zeros (only ever called with a strictly shorter
buffer, where natural subtraction agrees with Python). -/
def audio_padding (audio : List ℚ) (target_length : ℕ) : List ℚ :=
  audio ++ List.replicate (target_length - audio.length) 0

/-- The guarded padding step of `get_acts_from_array`: pad only when the
buffer is strictly shorter than `SAMPLE_LENGTH`. -/
def paddingStep (audio : List ℚ) : List ℚ :=
  if audio.length < SAMPLE_LENGTH then audio_padding audio SAMPLE_LENGTH else audio

/-- Embedding of `get_z(audio, vqvae)`.  The vq-vae `encode` call is a black
box returning the per-level token streams `zs`; the code keeps the last
level, flattens it, and raises `ValueError` when fewer than 8192 tokens
remain after truncating the audio to the first 25 seconds. -/
def get_z (encode : List ℚ → List (List ℤ)) (audio : List ℚ) :
    Except PyError (List ℤ) :=
  let truncated := audio.take (JUKEBOX_SAMPLE_RATE * 25)
  let z := (encode truncated).getLastD []
  if z.length < 8192 then .error (.valueError "Audio file is not long enough")
  else .ok z

/-- A 3-D tensor (batch × time × width). -/
abbrev T3 := List (List (List ℚ))

/-- Hyperparameter bundle as populated by `load_vqvae_and_prior`:
`Hyperparams()` is a dict-like object, so the `sample_length` attribute
(first written inside `get_cond`) is an `Option`. -/
structure Hyperparams where
  sr : ℕ
  n_samples : ℕ
  sample_length : Option ℕ
  name : String
  levels : ℕ
  hop_fraction : List ℚ
  deriving DecidableEq, Repr

/-- The metadata dict built inside `get_cond`. -/
structure Meta where
  artist : String
  genre : String
  total_length : ℕ
  offset : ℕ
  lyrics : String
  deriving DecidableEq, Repr

/-- The loaded top prior.  Its label/conditioning/forward operations live in
the external pretrained-model library and are black boxes, so they are
arbitrary function fields; `Λ` and `Υ` are the (opaque) types of the label
batch and of the `get_y` output. -/
structure Prior (Λ Υ : Type) where
  raw_to_tokens : ℕ
  get_batch_labels : List Meta → Λ
  get_y : Λ → ℕ → Υ
  get_cond_fn : Option Unit → Υ → T3 × T3 × T3
  forward : List ℤ → T3 → T3 → T3

/-- The hyperparameter bundle constructed in `load_vqvae_and_prior`
(`hps.sr = 44100`, `hps.n_samples = 8`, `hps.name = "samples"`,
`hps.levels = 3`, `hps.hop_fraction = [0.5, 0.5, 0.125]`; no
`sample_length` attribute yet). -/
def load_hps : Hyperparams :=
  { sr := 44100, n_samples := 8, sample_length := none, name := "samples",
    levels := 3, hop_fraction := [1/2, 1/2, 1/8] }

/-- Embedding of `get_cond(hps, top_prior)`.  It sets
`hps.sample_length = (62 * hps.sr // raw_to_tokens) * raw_to_tokens`
(returned here as the first component since the Python code mutates `hps`
in place), builds `hps.n_samples` identical placeholder metadata records,
runs them through the prior's labelling routines, and keeps the first
slice of each conditioning tensor with a leading batch dimension of one
(`x_cond[0, :T][np.newaxis, ...]` and `y_cond[0][np.newaxis, ...]`). -/
def get_cond {Λ Υ : Type} (hps : Hyperparams) (prior : Prior Λ Υ) :
    Hyperparams × T3 × T3 :=
  let sample_length := 62 * hps.sr / prior.raw_to_tokens * prior.raw_to_tokens
  let hps2 := { hps with sample_length := some sample_length }
  let metas := List.replicate hps2.n_samples
    { artist := "unknown", genre := "unknown", total_length := sample_length,
      offset := 0, lyrics := "lyrics go here!!!" : Meta }
  let labels := prior.get_batch_labels metas
  let xyp := prior.get_cond_fn none (prior.get_y labels 0)
  let x_cond : T3 := [(xyp.1.getD 0 []).take T]
  let y_cond : T3 := [xyp.2.1.getD 0 []]
  (hps2, x_cond, y_cond)

/-- Embedding of `get_final_activations(z, x_cond, y_cond, top_prior)`:
truncate the token sequence to the first `T` tokens and run the prior's
forward pass in encode-only mode (the forward pass itself is a black box). -/
def get_final_activations {Λ Υ : Type} (z : List ℤ) (x_cond y_cond : T3)
    (prior : Prior Λ Υ) : T3 :=
  prior.forward (z.take T) x_cond y_cond

/-- The `acts.squeeze()` step: drop the leading batch dimension of one. -/
def squeezeActs (t : T3) : List (List ℚ) := t.getD 0 []

/-- The reshape-and-mean kernel of the pooling step:
`acts.view(meanpool, -1, 4800)` reinterprets the row-major flattening of
`acts` with inferred middle dimension `k = numel / (meanpool * 4800)`, and
`.mean(dim=1)` averages over that middle axis. -/
def poolCore (acts : List (List ℚ)) (meanpool : ℕ) : List (List ℚ) :=
  let total := (acts.map List.length).sum
  let k := total / (meanpool * 4800)
  let flat := acts.flatten
  (List.range meanpool).map (fun i =>
    (List.range 4800).map (fun j =>
      ((List.range k).map (fun r => flat.getD ((i * k + r) * 4800 + j) 0)).sum
        / (k : ℚ)))

/-- The pooling step of `get_acts_from_array` with its Python failure modes:
evaluating `acts.size(0) % meanpool` with `meanpool = 0` raises
`ZeroDivisionError`; a nonzero remainder fails the `assert`; a total element
count not divisible by `meanpool * 4800` makes `view` raise a
`RuntimeError`; otherwise the reshaped tensor is averaged over its middle
axis. -/
def poolActs (acts : List (List ℚ)) (meanpool : ℕ) :
    Except PyError (List (List ℚ)) :=
  if meanpool = 0 then .error .zeroDivision
  else if acts.length % meanpool ≠ 0 then
    .error (.assertionError "The 'meanpool' param must be divisible by 8192. ")
  else if (acts.map List.length).sum % (meanpool * 4800) ≠ 0 then
    .error .runtimeError
  else .ok (poolCore acts meanpool)

/-- Embedding of `get_acts_from_array(audio, sr, hps, vqvae, top_prior,
meanpool)`: preprocess, pad up to `SAMPLE_LENGTH` when strictly shorter,
tokenize (`get_z`), build conditioning, run the forward pass, squeeze, and
mean-pool.  The `ValueError` of `get_z` propagates. -/
def get_acts_from_array {Λ Υ : Type} (resample : ℕ → NDArray → NDArray)
    (encode : List ℚ → List (List ℤ)) (audio : NDArray) (sr : ℕ)
    (hps : Hyperparams) (prior : Prior Λ Υ) (meanpool : ℕ) :
    Except PyError (List (List ℚ)) :=
  let audio1 := (preprocess_audio resample audio sr).flat
  let audio2 := paddingStep audio1
  match get_z encode audio2 with
  | .error e => .error e
  | .ok z =>
    let c := get_cond hps prior
    let acts := squeezeActs (get_final_activations z c.2.1 c.2.2 prior)
    poolActs acts meanpool

/-- Embedding of `load_audio_from_file(fpath)`: librosa's `lr.load` (black
box `loadAudio`, returning a mono buffer at 44100 Hz) followed by
`preprocess_audio` at the model sample rate. -/
def load_audio_from_file (loadAudio : String → List ℚ)
    (resample : ℕ → NDArray → NDArray) (fpath : String) : List ℚ :=
  (preprocess_audio resample (NDArray.one (loadAudio fpath))
    JUKEBOX_SAMPLE_RATE).flat

/-- Embedding of `get_acts_from_file(fpath, hps, vqvae, top_prior,
meanpool)`. -/
def get_acts_from_file {Λ Υ : Type} (loadAudio : String → List ℚ)
    (resample : ℕ → NDArray → NDArray) (encode : List ℚ → List (List ℤ))
    (fpath : String) (hps : Hyperparams) (prior : Prior Λ Υ) (meanpool : ℕ) :
    Except PyError (List (List ℚ)) :=
  get_acts_from_array resample encode
    (NDArray.one (load_audio_from_file loadAudio resample fpath))
    JUKEBOX_SAMPLE_RATE hps prior meanpool

/-- The token sequence `get_z` tests for the file `fpath`: the last-level
codes of the padded, 25-second-truncated, preprocessed audio. -/
def fileTokens (loadAudio : String → List ℚ)
    (resample : ℕ → NDArray → NDArray) (encode : List ℚ → List (List ℤ))
    (fpath : String) : List ℤ :=
  (encode ((paddingStep (preprocess_audio resample
      (NDArray.one (load_audio_from_file loadAudio resample fpath))
      JUKEBOX_SAMPLE_RATE).flat).take (JUKEBOX_SAMPLE_RATE * 25))).getLastD []

/-- Model of `pathlib.Path(name).stem`: the file name without its last
suffix, i.e. everything before the last dot (a name without a dot, or
whose only dot is the leading character such as `".bashrc"`, is kept
whole). -/
def stem (s : String) : String :=
  match s.data.reverse.dropWhile (fun c => c ≠ '.') with
  | [] => s
  | [_] => s
  | _ :: rest => ⟨rest.reverse⟩

/-- Observable filesystem/model actions of one pass of the batch driver
loop: loading a cached `.npy` file, running the per-file pipeline, and
saving an output array. -/
inductive DriverEvent where
  | loadCache (out : String)
  | compute (inp : String)
  | save (out : String)
  deriving DecidableEq, Repr

/-- The `for input_path in tqdm(input_paths)` loop of `embed_from_folder`.
`existing` is the set of output file names already on disk; the returned
pair is the event trace together with the uncaught error that aborted the
loop, if any.  When the output exists and the cache flag is set, the loop
body loads the cached array (discarding it) and `continue`s; otherwise it
computes the representation and saves it (a save makes the output exist
for later iterations).  A pipeline failure is not caught: the loop stops
and the error propagates. -/
def runFiles (pipeline : String → Except PyError (List (List ℚ)))
    (usingCached : Bool) :
    List String → List String → List DriverEvent × Option PyError
  | _, [] => ([], none)
  | existing, f :: fs =>
    let out := stem f ++ ".npy"
    if existing.contains out && usingCached then
      let rest := runFiles pipeline usingCached existing fs
      (.loadCache out :: rest.1, rest.2)
    else
      match pipeline f with
      | .error e => ([.compute f], some e)
      | .ok _ =>
        let rest := runFiles pipeline usingCached (out :: existing) fs
        (.compute f :: .save out :: rest.1, rest.2)

/-- The hardcoded cache flag `USING_CACHED_FILE = False` of
`embed_from_folder`. -/
def USING_CACHED_FILE : Bool := false

/-- Embedding of `embed_from_folder`: sort the directory listing, keep the
`.wav` files, and run the driver loop with the hardcoded cache flag.  The
per-file pipeline (model loading plus `get_acts_from_file` under
`torch.no_grad`) is abstracted as `pipeline`. -/
def embed_from_folder (pipeline : String → Except PyError (List (List ℚ)))
    (existing listing : List String) : List DriverEvent × Option PyError :=
  runFiles pipeline USING_CACHED_FILE existing
    (((listing.mergeSort (fun a b => decide (a ≤ b))).filter
        (fun x => x.endsWith ".wav")))

/-- The per-file pipeline the driver loop runs for one input path. -/
def filePipeline {Λ Υ : Type} (loadAudio : String → List ℚ)
    (resample : ℕ → NDArray → NDArray) (encode : List ℚ → List (List ℤ))
    (hps : Hyperparams) (prior : Prior Λ Υ) (meanpool : ℕ) :
    String → Except PyError (List (List ℚ)) :=
  fun fpath => get_acts_from_file loadAudio resample encode fpath hps prior meanpool

/-! Helper lemmas about the batch driver loop. -/

/-- With the cache flag off, the driver loop never reads the set of
existing outputs. -/
theorem runFiles_false_existing_irrel
    (pipeline : String → Except PyError (List (List ℚ))) (files : List String) :
    ∀ existing existing', runFiles pipeline false existing files
      = runFiles pipeline false existing' files := by
  induction files with
  | nil => intro _ _; rfl
  | cons f fs ih =>
    intro ex ex'
    simp only [runFiles, Bool.and_false, Bool.false_eq_true, if_false]
    cases pipeline f with
    | error e => rfl
    | ok v =>
      rw [ih ((stem f ++ ".npy") :: ex) ((stem f ++ ".npy") :: ex')]

/-- With the cache flag off and an always-succeeding pipeline, the driver
loop completes and computes and saves every file. -/
theorem runFiles_false_all_ok
    (pipeline : String → Except PyError (List (List ℚ)))
    (hok : ∀ f, ∃ v, pipeline f = .ok v) (files : List String) :
    ∀ existing, (runFiles pipeline false existing files).2 = none
      ∧ ∀ f ∈ files,
          DriverEvent.compute f ∈ (runFiles pipeline false existing files).1
          ∧ DriverEvent.save (stem f ++ ".npy")
              ∈ (runFiles pipeline false existing files).1 := by
  induction files with
  | nil => intro _; exact ⟨rfl, by simp⟩
  | cons f fs ih =>
    intro existing
    obtain ⟨v, hv⟩ := hok f
    simp only [runFiles, Bool.and_false, Bool.false_eq_true, if_false, hv]
    obtain ⟨hnone, hmem⟩ := ih ((stem f ++ ".npy") :: existing)
    refine ⟨hnone, ?_⟩
    intro g hg
    rcases List.mem_cons.mp hg with h | h
    · subst h; simp
    · exact ⟨List.mem_cons_of_mem _ (List.mem_cons_of_mem _ (hmem g h).1),
        List.mem_cons_of_mem _ (List.mem_cons_of_mem _ (hmem g h).2)⟩

/-- Claim C8: for every 1-D or 2-D input buffer the value returned by
`preprocess_audio` is 1-D (mono), and `preprocess_audio` is deterministic:
two calls on equal inputs with equal sample rates return equal outputs
(the embedding is a pure function of the buffer, the rate, and the
librosa resampler). -/
theorem preprocess_mono_deterministic (resample : ℕ → NDArray → NDArray)
    (audio : NDArray) (sr : ℕ) :
    (∃ l, preprocess_audio resample audio sr = .one l)
    ∧ ∀ (audio' : NDArray) (sr' : ℕ), audio = audio' → sr = sr' →
        preprocess_audio resample audio sr = preprocess_audio resample audio' sr' := by
  refine ⟨⟨_, rfl⟩, ?_⟩
  rintro audio' sr' rfl rfl
  rfl

/-- Witness for C8 at a concrete stereo buffer. -/
theorem preprocess_mono_deterministic_witness :
    (NDArray.two [[1, 2], [3, 4]] = NDArray.two [[1, 2], [3, 4]]
      ∧ (22050 : ℕ) = 22050)
    ∧ preprocess_audio (fun _ a => a) (NDArray.two [[1, 2], [3, 4]]) 22050
        = preprocess_audio (fun _ a => a) (NDArray.two [[1, 2], [3, 4]]) 22050 :=
  ⟨⟨rfl, rfl⟩,
    (preprocess_mono_deterministic (fun _ a => a)
        (NDArray.two [[1, 2], [3, 4]]) 22050).2
      (NDArray.two [[1, 2], [3, 4]]) 22050 rfl rfl⟩

/-- Claim C4: a buffer strictly shorter than `SAMPLE_LENGTH` is padded to
exactly `SAMPLE_LENGTH`, keeping the original buffer as a prefix and
appending only zeros; a buffer at or above `SAMPLE_LENGTH` passes through
the padding step unchanged (neither padded nor truncated). -/
theorem padding_pads_short (audio : List ℚ) :
    (audio.length < SAMPLE_LENGTH →
      (paddingStep audio).length = SAMPLE_LENGTH
      ∧ (paddingStep audio).take audio.length = audio
      ∧ ∀ x ∈ (paddingStep audio).drop audio.length, x = 0)
    ∧ (SAMPLE_LENGTH ≤ audio.length → paddingStep audio = audio) := by
  constructor
  · intro h
    unfold paddingStep
    rw [if_pos h]
    unfold audio_padding
    refine ⟨?_, ?_, ?_⟩
    · rw [List.length_append, List.length_replicate]
      omega
    · rw [List.take_left]
    · rw [List.drop_left]
      intro x hx
      exact List.eq_of_mem_replicate hx
  · intro h
    unfold paddingStep
    rw [if_neg (by omega)]

/-- Witness for C4 at the one-sample buffer `[3]`. -/
theorem padding_pads_short_witness :
    [(3 : ℚ)].length < SAMPLE_LENGTH
    ∧ ((paddingStep [(3 : ℚ)]).length = SAMPLE_LENGTH
       ∧ (paddingStep [(3 : ℚ)]).take [(3 : ℚ)].length = [(3 : ℚ)]
       ∧ ∀ x ∈ (paddingStep [(3 : ℚ)]).drop [(3 : ℚ)].length, x = 0) :=
  ⟨by norm_num [SAMPLE_LENGTH],
    (padding_pads_short [3]).1 (by norm_num [SAMPLE_LENGTH])⟩

/-- Claim C10: `get_cond` updates the shared hyperparameter bundle by
setting `sample_length` to `(62 * hps.sr // raw_to_tokens) * raw_to_tokens`
and leaves every other field unchanged, and the update is idempotent, so
after the first per-file call every later call leaves the bundle in the
same state. -/
theorem get_cond_frame {Λ Υ : Type} (prior : Prior Λ Υ) (hps : Hyperparams) :
    ((get_cond hps prior).1).sample_length
        = some (62 * hps.sr / prior.raw_to_tokens * prior.raw_to_tokens)
    ∧ ((get_cond hps prior).1).sr = hps.sr
    ∧ ((get_cond hps prior).1).n_samples = hps.n_samples
    ∧ ((get_cond hps prior).1).name = hps.name
    ∧ ((get_cond hps prior).1).levels = hps.levels
    ∧ ((get_cond hps prior).1).hop_fraction = hps.hop_fraction
    ∧ (get_cond ((get_cond hps prior).1) prior).1 = (get_cond hps prior).1 :=
  ⟨rfl, rfl, rfl, rfl, rfl, rfl, rfl⟩

/-- Counterexample to claim C6 as stated: with the cache flag enabled, a
same-named existing output, and a per-file pipeline that would fail if it
were ever run, the driver loop completes without error and without any
compute or save event — so the cache branch does prevent recomputation
(the `continue` skips the pipeline work), contrary to the claim. -/
theorem cache_branch_counterexample :
    runFiles (fun _ => .error (.valueError "recomputation happened"))
        true ["track1.npy"] ["track1.wav"]
      = ([DriverEvent.loadCache "track1.npy"], none)
    ∧ DriverEvent.compute "track1.wav"
        ∉ (runFiles (fun _ => .error (.valueError "recomputation happened"))
            true ["track1.npy"] ["track1.wav"]).1 := by
  refine ⟨?_, ?_⟩ <;> decide

/-- Claim C6 as amended: when the cache flag is enabled and a same-named
output already exists, the cache branch loads the cached array, discards
the loaded data, and skips the pipeline work for that file via `continue`
(no compute and no save event for it); the branch is dead in practice only
because the flag is hardcoded to `False`. -/
theorem cache_branch_skips_work
    (pipeline : String → Except PyError (List (List ℚ)))
    (existing : List String) (f : String) (fs : List String)
    (hex : (stem f ++ ".npy") ∈ existing) :
    runFiles pipeline true existing (f :: fs)
      = (DriverEvent.loadCache (stem f ++ ".npy")
            :: (runFiles pipeline true existing fs).1,
         (runFiles pipeline true existing fs).2) := by
  simp only [runFiles]
  rw [if_pos (by simp [hex])]

/-- Witness for the amended C6 at a concrete one-file batch. -/
theorem cache_branch_skips_work_witness :
    (stem "a.wav" ++ ".npy") ∈ ["a.npy"]
    ∧ runFiles (fun _ => .ok []) true ["a.npy"] ["a.wav"]
        = (DriverEvent.loadCache (stem "a.wav" ++ ".npy")
              :: (runFiles (fun _ => .ok []) true ["a.npy"] []).1,
           (runFiles (fun _ => .ok []) true ["a.npy"] []).2) :=
  ⟨by decide, cache_branch_skips_work (fun _ => .ok []) ["a.npy"] "a.wav" [] (by decide)⟩

/-- Claim C7: with the cache flag at its hardcoded disabled default, the
batch driver ignores the set of already-existing outputs entirely, and
(when the pipeline succeeds) computes and saves an output for every sorted
`.wav` input, overwriting any same-named existing file: the existence
check never causes a skip. -/
theorem cache_flag_disabled_no_skip
    (pipeline : String → Except PyError (List (List ℚ)))
    (existing existing' listing : List String)
    (hok : ∀ f, ∃ v, pipeline f = .ok v) :
    embed_from_folder pipeline existing listing
        = embed_from_folder pipeline existing' listing
    ∧ (embed_from_folder pipeline existing listing).2 = none
    ∧ ∀ f ∈ (listing.mergeSort (fun a b => decide (a ≤ b))).filter
          (fun x => x.endsWith ".wav"),
        DriverEvent.compute f ∈ (embed_from_folder pipeline existing listing).1
        ∧ DriverEvent.save (stem f ++ ".npy")
            ∈ (embed_from_folder pipeline existing listing).1 := by
  unfold embed_from_folder USING_CACHED_FILE
  exact ⟨runFiles_false_existing_irrel pipeline _ existing existing',
    (runFiles_false_all_ok pipeline hok _ existing).1,
    (runFiles_false_all_ok pipeline hok _ existing).2⟩

/-- Witness for C7: a one-file batch whose output already exists is
recomputed and saved anyway. -/
theorem cache_flag_disabled_no_skip_witness :
    (∀ f : String, ∃ v, (fun _ : String =>
        (.ok [] : Except PyError (List (List ℚ)))) f = .ok v)
    ∧ (embed_from_folder (fun _ => .ok []) ["track1.npy"] ["track1.wav"]
          = embed_from_folder (fun _ => .ok []) [] ["track1.wav"]
       ∧ (embed_from_folder (fun _ => .ok []) ["track1.npy"] ["track1.wav"]).2 = none
       ∧ ∀ f ∈ (["track1.wav"].mergeSort (fun a b => decide (a ≤ b))).filter
             (fun x => x.endsWith ".wav"),
           DriverEvent.compute f
             ∈ (embed_from_folder (fun _ => .ok []) ["track1.npy"] ["track1.wav"]).1
           ∧ DriverEvent.save (stem f ++ ".npy")
             ∈ (embed_from_folder (fun _ => .ok []) ["track1.npy"] ["track1.wav"]).1) :=
  ⟨fun _ => ⟨[], rfl⟩,
    cache_flag_disabled_no_skip (fun _ => .ok []) ["track1.npy"] [] ["track1.wav"]
      (fun _ => ⟨[], rfl⟩)⟩

/-! Helper lemmas about the peak absolute amplitude. -/

theorem peakAbs_nonneg (a : List ℚ) : 0 ≤ peakAbs a := by
  induction a with
  | nil => exact le_refl 0
  | cons x xs ih => exact le_max_of_le_right ih

theorem peakAbs_eq_zero {a : List ℚ} (h : peakAbs a = 0) : ∀ x ∈ a, x = 0 := by
  induction a with
  | nil => simp
  | cons x xs ih =>
    simp only [peakAbs] at h
    have hx : |x| = 0 := le_antisymm (h ▸ le_max_left |x| (peakAbs xs)) (abs_nonneg x)
    have hxs : peakAbs xs = 0 :=
      le_antisymm (h ▸ le_max_right |x| (peakAbs xs)) (peakAbs_nonneg xs)
    intro y hy
    rcases List.mem_cons.mp hy with h' | h'
    · exact h' ▸ abs_eq_zero.mp hx
    · exact ih hxs y h'

theorem peakAbs_map_div {p : ℚ} (hp : 0 < p) (a : List ℚ) :
    peakAbs (a.map (fun x => x / p)) = peakAbs a / p := by
  induction a with
  | nil => simp [peakAbs]
  | cons x xs ih =>
    simp only [List.map_cons, peakAbs, ih]
    rw [abs_div, abs_of_pos hp, max_div_div_right hp.le]

/-- Counterexample to claim C3 as stated: the stereo buffer `[[1], [-1]]`
has peak absolute amplitude 1 ≠ 0, yet (with the identity resampler, which
is what librosa uses when the source rate already equals 44100 Hz) the two
channels cancel in the downmix, so normalization is skipped and the
returned buffer `[0]` has maximum absolute value 0, not 1. -/
theorem preprocess_peak_counterexample :
    peakAbs (NDArray.two [[1], [-1]]).flat ≠ 0
    ∧ preprocess_audio (fun _ a => a) (NDArray.two [[1], [-1]]) 44100
        = NDArray.one [0]
    ∧ peakAbs ((preprocess_audio (fun _ a => a)
        (NDArray.two [[1], [-1]]) 44100).flat) ≠ 1 := by
  refine ⟨?_, ?_, ?_⟩ <;>
    norm_num [preprocess_audio, atleast2d, downmix, peakAbs, NDArray.flat,
      List.range_succ, abs_eq_max_neg, max_def]

/-- Claim C3 as amended: whenever the resampled, channel-averaged buffer
has nonzero peak absolute amplitude, the buffer returned by
`preprocess_audio` has maximum absolute value exactly 1; whenever that
channel-averaged buffer has zero peak (in particular for all-zero input
under a peak-preserving resampler), the division is skipped, the buffer
passes through unchanged, and it is all-zero — no division by zero
occurs. -/
theorem preprocess_peak_normalized (resample : ℕ → NDArray → NDArray)
    (audio : NDArray) (sr : ℕ) :
    (peakAbs (downmix (atleast2d (resample sr audio))) ≠ 0 →
      peakAbs ((preprocess_audio resample audio sr).flat) = 1)
    ∧ (peakAbs (downmix (atleast2d (resample sr audio))) = 0 →
      preprocess_audio resample audio sr
          = NDArray.one (downmix (atleast2d (resample sr audio)))
      ∧ ∀ x ∈ downmix (atleast2d (resample sr audio)), x = 0) := by
  constructor
  · intro h
    have hpos : 0 < peakAbs (downmix (atleast2d (resample sr audio))) :=
      lt_of_le_of_ne (peakAbs_nonneg _) (Ne.symm h)
    show peakAbs (NDArray.flat (NDArray.one
      (if 0 < peakAbs (downmix (atleast2d (resample sr audio))) then
        (downmix (atleast2d (resample sr audio))).map
          (fun x => x / peakAbs (downmix (atleast2d (resample sr audio))))
      else downmix (atleast2d (resample sr audio))))) = 1
    rw [if_pos hpos]
    show peakAbs ((downmix (atleast2d (resample sr audio))).map
      (fun x => x / peakAbs (downmix (atleast2d (resample sr audio))))) = 1
    rw [peakAbs_map_div hpos, div_self (ne_of_gt hpos)]
  · intro h
    constructor
    · show NDArray.one
        (if 0 < peakAbs (downmix (atleast2d (resample sr audio))) then
          (downmix (atleast2d (resample sr audio))).map
            (fun x => x / peakAbs (downmix (atleast2d (resample sr audio))))
        else downmix (atleast2d (resample sr audio)))
          = NDArray.one (downmix (atleast2d (resample sr audio)))
      rw [if_neg (by rw [h]; exact lt_irrefl 0)]
    · exact peakAbs_eq_zero h

/-- Witness for the amended C3 at a concrete non-silent mono buffer. -/
theorem preprocess_peak_normalized_witness :
    peakAbs (downmix (atleast2d ((fun _ a => a : ℕ → NDArray → NDArray) 44100
        (NDArray.one [1/2, -1/4])))) ≠ 0
    ∧ peakAbs ((preprocess_audio (fun _ a => a)
        (NDArray.one [1/2, -1/4]) 44100).flat) = 1 :=
  ⟨by norm_num [atleast2d, downmix, peakAbs, List.range_succ, abs_eq_max_neg,
      max_def],
    (preprocess_peak_normalized (fun _ a => a) (NDArray.one [1/2, -1/4]) 44100).1
      (by norm_num [atleast2d, downmix, peakAbs, List.range_succ, abs_eq_max_neg,
        max_def])⟩

/-- Counterexample to claim C5 as stated: `0` is not a divisor of 8192, yet
invoking the pooling step with pooling-window-count 0 raises
`ZeroDivisionError` (Python evaluates `acts.size(0) % 0` before the assert
can fail), not an assertion failure. -/
theorem pool_zero_counterexample :
    poolActs (List.replicate 8192 (List.replicate 4800 (0 : ℚ))) 0
      = .error .zeroDivision
    ∧ ¬ (0 ∣ 8192)
    ∧ (Except.error PyError.zeroDivision
        ≠ (Except.error (PyError.assertionError
            "The 'meanpool' param must be divisible by 8192. ")
          : Except PyError (List (List ℚ)))) :=
  ⟨rfl, by decide, by simp⟩

/-- Claim C5 as amended: on an activation tensor of shape (8192, 4800) the
pooling step succeeds exactly when the pooling-window-count divides 8192;
every nonzero non-divisor (e.g. 7) raises the assertion failure, while
window-count 0 fails with a division-by-zero error instead of an assertion
failure. -/
theorem pool_guard (acts : List (List ℚ)) (m : ℕ)
    (hlen : acts.length = 8192) (hw : ∀ row ∈ acts, row.length = 4800) :
    ((∃ out, poolActs acts m = .ok out) ↔ m ∣ 8192)
    ∧ (m ≠ 0 → ¬ m ∣ 8192 →
        poolActs acts m = .error (.assertionError
          "The 'meanpool' param must be divisible by 8192. "))
    ∧ poolActs acts 0 = .error .zeroDivision := by
  have htot : (acts.map List.length).sum = 8192 * 4800 := by
    have hrep : acts.map List.length = List.replicate 8192 4800 := by
      rw [List.eq_replicate_iff]
      refine ⟨by rw [List.length_map, hlen], ?_⟩
      intro b hb
      obtain ⟨row, hrow, hbeq⟩ := List.mem_map.mp hb
      exact hbeq ▸ hw row hrow
    rw [hrep, List.sum_replicate, smul_eq_mul]
  have hassert : ∀ m' : ℕ, m' ≠ 0 → ¬ m' ∣ 8192 →
      poolActs acts m' = .error (.assertionError
        "The 'meanpool' param must be divisible by 8192. ") := by
    intro m' hm0 hmd
    have h1 : acts.length % m' ≠ 0 := by
      rw [hlen]
      intro hmod
      exact hmd (Nat.dvd_iff_mod_eq_zero.mpr hmod)
    unfold poolActs
    rw [if_neg hm0, if_pos h1]
  have hzero : poolActs acts 0 = .error .zeroDivision := by
    unfold poolActs
    rw [if_pos rfl]
  refine ⟨?_, hassert m, hzero⟩
  constructor
  · rintro ⟨out, hout⟩
    by_contra hmd
    rcases Nat.eq_zero_or_pos m with hm0 | hmpos
    · rw [hm0, hzero] at hout
      exact Except.noConfusion hout
    · rw [hassert m (Nat.pos_iff_ne_zero.mp hmpos) hmd] at hout
      exact Except.noConfusion hout
  · intro hmd
    have hm0 : m ≠ 0 := by
      rintro rfl
      exact absurd (Nat.eq_zero_of_zero_dvd hmd) (by norm_num)
    have h1 : ¬ acts.length % m ≠ 0 := by
      rw [hlen]
      exact not_not_intro (Nat.mod_eq_zero_of_dvd hmd)
    have h2 : ¬ (acts.map List.length).sum % (m * 4800) ≠ 0 := by
      rw [htot]
      exact not_not_intro (Nat.mod_eq_zero_of_dvd (mul_dvd_mul_right hmd 4800))
    refine ⟨poolCore acts m, ?_⟩
    unfold poolActs
    rw [if_neg hm0, if_neg h1, if_neg h2]

/-- Witness for the amended C5 on a concrete (8192, 4800) tensor at the
non-divisor window-count 7. -/
theorem pool_guard_witness :
    (List.replicate 8192 (List.replicate 4800 (0 : ℚ))).length = 8192
    ∧ (∀ row ∈ List.replicate 8192 (List.replicate 4800 (0 : ℚ)),
        row.length = 4800)
    ∧ (((∃ out, poolActs (List.replicate 8192 (List.replicate 4800 (0 : ℚ))) 7
          = .ok out) ↔ (7 : ℕ) ∣ 8192)
      ∧ ((7 : ℕ) ≠ 0 → ¬ (7 : ℕ) ∣ 8192 →
          poolActs (List.replicate 8192 (List.replicate 4800 (0 : ℚ))) 7
            = .error (.assertionError
              "The 'meanpool' param must be divisible by 8192. "))
      ∧ poolActs (List.replicate 8192 (List.replicate 4800 (0 : ℚ))) 0
          = .error .zeroDivision) :=
  ⟨by rw [List.length_replicate],
    fun row hrow => by rw [List.eq_of_mem_replicate hrow, List.length_replicate],
    pool_guard (List.replicate 8192 (List.replicate 4800 (0 : ℚ))) 7
      (by rw [List.length_replicate])
      (fun row hrow => by
        rw [List.eq_of_mem_replicate hrow, List.length_replicate])⟩

/-- Claim C9: the conditioning tensors returned by `get_cond` do not depend
on the input audio — `get_cond` reads only the loaded prior and the
hyperparameter bundle (and of the bundle only `sr` and `n_samples`, both of
which the bundle keeps across per-file calls), the metadata being a
hardcoded constant; hence any two files processed in the same run receive
identical `x_cond`, `y_cond`. -/
theorem get_cond_input_independent {Λ Υ : Type} (prior : Prior Λ Υ)
    (hps hps' : Hyperparams) (hsr : hps.sr = hps'.sr)
    (hn : hps.n_samples = hps'.n_samples) :
    (get_cond hps prior).2 = (get_cond hps' prior).2 := by
  simp only [get_cond, hsr, hn]

/-- A concrete prior with trivial black-box operations, for witnesses. -/
def trivPrior : Prior Unit Unit :=
  { raw_to_tokens := 128, get_batch_labels := fun _ => (),
    get_y := fun _ _ => (), get_cond_fn := fun _ _ => ([], [], []),
    forward := fun _ _ _ => [] }

/-- Witness for C9: two bundles differing in `name` and `sample_length`
(the state before and after a first per-file call) yield the same
conditioning. -/
theorem get_cond_input_independent_witness :
    load_hps.sr
        = ({ load_hps with name := "other", sample_length := some 5
            : Hyperparams }).sr
    ∧ load_hps.n_samples
        = ({ load_hps with name := "other", sample_length := some 5
            : Hyperparams }).n_samples
    ∧ (get_cond load_hps trivPrior).2
        = (get_cond { load_hps with name := "other", sample_length := some 5 }
            trivPrior).2 :=
  ⟨rfl, rfl, get_cond_input_independent trivPrior load_hps
    { load_hps with name := "other", sample_length := some 5 } rfl rfl⟩

/-- Appending the fixed `.npy` suffix to output names is injective. -/
theorem append_npy_inj {a b : String} (h : a ++ ".npy" = b ++ ".npy") :
    a = b := by
  have hd := congrArg String.data h
  simp only [String.data_append] at hd
  exact String.ext (List.append_cancel_right hd)

/-- If the per-file pipeline fails on `f` and succeeds on everything placed
before `f`, the driver loop (cache flag off) aborts with exactly that
error and never saves an output for `f`. -/
theorem runFiles_first_error
    (pipeline : String → Except PyError (List (List ℚ)))
    (f : String) (e : PyError) (hf : pipeline f = .error e) (fs2 : List String) :
    ∀ (fs1 existing : List String), (∀ g ∈ fs1, ∃ v, pipeline g = .ok v) →
      (∀ g ∈ fs1, stem g ≠ stem f) →
      (runFiles pipeline false existing (fs1 ++ f :: fs2)).2 = some e
      ∧ DriverEvent.save (stem f ++ ".npy")
          ∉ (runFiles pipeline false existing (fs1 ++ f :: fs2)).1 := by
  intro fs1
  induction fs1 with
  | nil =>
    intro existing _ _
    simp only [List.nil_append, runFiles, Bool.and_false, Bool.false_eq_true,
      if_false, hf]
    constructor <;> simp
  | cons g gs ih =>
    intro existing hok hstem
    obtain ⟨v, hv⟩ := hok g (List.mem_cons_self g gs)
    simp only [List.cons_append, runFiles, Bool.and_false, Bool.false_eq_true,
      if_false, hv]
    obtain ⟨h2, h1⟩ := ih ((stem g ++ ".npy") :: existing)
      (fun x hx => hok x (List.mem_cons_of_mem _ hx))
      (fun x hx => hstem x (List.mem_cons_of_mem _ hx))
    refine ⟨h2, ?_⟩
    intro hmem
    rcases List.mem_cons.mp hmem with hc | hmem'
    · exact DriverEvent.noConfusion hc
    rcases List.mem_cons.mp hmem' with hc | hmem''
    · exact hstem g (List.mem_cons_self g gs)
        (append_npy_inj (DriverEvent.save.inj hc)).symm
    · exact h1 hmem''

/-- Claim C2: whenever the post-tokenization token sequence of an input is
strictly shorter than 8192, `get_z` raises the descriptive `ValueError`,
the error propagates uncaught out of the per-file pipeline
(`get_acts_from_file`) and out of the batch driver loop (which aborts
there, all earlier files having succeeded), and no output file is ever
saved for that input. -/
theorem short_tokens_error {Λ Υ : Type} (prior : Prior Λ Υ) (hps : Hyperparams)
    (loadAudio : String → List ℚ) (resample : ℕ → NDArray → NDArray)
    (encode : List ℚ → List (List ℤ)) (meanpool : ℕ)
    (existing fs1 fs2 : List String) (f : String)
    (hshort : (fileTokens loadAudio resample encode f).length < 8192)
    (hok : ∀ g ∈ fs1, ∃ v,
        filePipeline loadAudio resample encode hps prior meanpool g = .ok v)
    (hstem : ∀ g ∈ fs1, stem g ≠ stem f) :
    get_z encode (paddingStep ((preprocess_audio resample
        (NDArray.one (load_audio_from_file loadAudio resample f))
        JUKEBOX_SAMPLE_RATE).flat))
        = .error (.valueError "Audio file is not long enough")
    ∧ filePipeline loadAudio resample encode hps prior meanpool f
        = .error (.valueError "Audio file is not long enough")
    ∧ (runFiles (filePipeline loadAudio resample encode hps prior meanpool)
          USING_CACHED_FILE existing (fs1 ++ f :: fs2)).2
        = some (.valueError "Audio file is not long enough")
    ∧ DriverEvent.save (stem f ++ ".npy")
        ∉ (runFiles (filePipeline loadAudio resample encode hps prior meanpool)
            USING_CACHED_FILE existing (fs1 ++ f :: fs2)).1 := by
  unfold fileTokens at hshort
  have h1 : get_z encode (paddingStep ((preprocess_audio resample
      (NDArray.one (load_audio_from_file loadAudio resample f))
      JUKEBOX_SAMPLE_RATE).flat))
      = .error (.valueError "Audio file is not long enough") := by
    unfold get_z
    rw [if_pos hshort]
  have h2 : filePipeline loadAudio resample encode hps prior meanpool f
      = .error (.valueError "Audio file is not long enough") := by
    simp only [filePipeline, get_acts_from_file, get_acts_from_array, h1]
  obtain ⟨h3, h4⟩ := runFiles_first_error
    (filePipeline loadAudio resample encode hps prior meanpool) f
    (.valueError "Audio file is not long enough") h2 fs2 fs1 existing hok hstem
  exact ⟨h1, h2, h3, h4⟩

/-- Witness for C2: a one-file batch whose encoder yields an empty token
sequence aborts with the `ValueError` and saves nothing. -/
theorem short_tokens_error_witness :
    (fileTokens (fun _ => [1]) (fun _ a => a) (fun _ => []) "a.wav").length < 8192
    ∧ (get_z (fun _ => []) (paddingStep ((preprocess_audio (fun _ a => a)
          (NDArray.one (load_audio_from_file (fun _ => [1]) (fun _ a => a) "a.wav"))
          JUKEBOX_SAMPLE_RATE).flat))
          = .error (.valueError "Audio file is not long enough")
      ∧ filePipeline (fun _ => [1]) (fun _ a => a) (fun _ => []) load_hps
          trivPrior 32 "a.wav"
          = .error (.valueError "Audio file is not long enough")
      ∧ (runFiles (filePipeline (fun _ => [1]) (fun _ a => a) (fun _ => [])
            load_hps trivPrior 32) USING_CACHED_FILE [] ([] ++ "a.wav" :: [])).2
          = some (.valueError "Audio file is not long enough")
      ∧ DriverEvent.save (stem "a.wav" ++ ".npy")
          ∉ (runFiles (filePipeline (fun _ => [1]) (fun _ a => a) (fun _ => [])
              load_hps trivPrior 32) USING_CACHED_FILE [] ([] ++ "a.wav" :: [])).1) :=
  ⟨by norm_num [fileTokens],
    short_tokens_error trivPrior load_hps (fun _ => [1]) (fun _ a => a)
      (fun _ => []) 32 [] [] [] "a.wav" (by norm_num [fileTokens])
      (fun g hg => absurd hg (List.not_mem_nil g))
      (fun g hg => absurd hg (List.not_mem_nil g))⟩

/-- Elementwise sum of a list of rows of width `w` (index `j` of the result
sums entry `j` of every row). -/
def vecSum (w : ℕ) (rows : List (List ℚ)) : List ℚ :=
  (List.range w).map (fun j => (rows.map (fun row => row.getD j 0)).sum)

/-- The specification-side arithmetic mean of the consecutive `k`-row slice
`i*k .. i*k + k - 1` of an activation tensor, stated with `drop`/`take`
(independently of the row-major reshape the code performs). -/
def sliceMean (w : ℕ) (acts : List (List ℚ)) (i k : ℕ) : List ℚ :=
  (vecSum w ((acts.drop (i * k)).take k)).map (fun x => x / (k : ℚ))

theorem getD_map_range {α : Type} (F : ℕ → α) (d : α) (m i : ℕ) (h : i < m) :
    ((List.range m).map F).getD i d = F i := by
  rw [List.getD_eq_getElem _ d (by simpa using h), List.getElem_map,
    List.getElem_range]

/-- Indexing the row-major flattening of a list of width-`w` rows at
`q * w + j` reads entry `j` of row `q`. -/
theorem getD_flatten_width (w : ℕ) :
    ∀ (L : List (List ℚ)) (q j : ℕ), (∀ l ∈ L, l.length = w) →
      q < L.length → j < w →
      L.flatten.getD (q * w + j) 0 = (L.getD q []).getD j 0 := by
  intro L
  induction L with
  | nil => intro q j _ hq _; exact absurd hq (Nat.not_lt_zero q)
  | cons l L ih =>
    intro q j hwid hq hj
    have hlw : l.length = w := hwid l (List.mem_cons_self l L)
    cases q with
    | zero =>
      simp only [Nat.zero_mul, Nat.zero_add, List.flatten_cons,
        List.getD_cons_zero]
      exact List.getD_append l L.flatten 0 j (by rw [hlw]; exact hj)
    | succ q' =>
      simp only [List.flatten_cons, List.getD_cons_succ]
      have hidx : (q' + 1) * w + j = l.length + (q' * w + j) := by
        rw [hlw]; ring
      rw [hidx, List.getD_append_right l L.flatten 0 _ (Nat.le_add_right _ _),
        Nat.add_sub_cancel_left]
      exact ih q' j (fun x hx => hwid x (List.mem_cons_of_mem l hx))
        (Nat.lt_of_succ_lt_succ hq) hj

/-- A mapped contiguous slice of a list, written with `drop`/`take`, equals
the corresponding map over explicit indices. -/
theorem map_take_drop_eq_range (g : List ℚ → ℚ) (acts : List (List ℚ))
    (n k : ℕ) (hnk : n + k ≤ acts.length) :
    ((acts.drop n).take k).map g
      = (List.range k).map (fun r => g (acts.getD (n + r) [])) := by
  apply List.ext_getElem
  · simp only [List.length_map, List.length_take, List.length_drop,
      List.length_range]
    omega
  · intro r h1 h2
    have hr : r < k := by simpa using h2
    have hrlen : n + r < acts.length := by omega
    rw [List.getElem_map, List.getElem_map, List.getElem_range]
    congr 1
    rw [List.getElem_take, List.getElem_drop,
      List.getD_eq_getElem acts [] hrlen]

/-- Claim C1: on an activation tensor of shape (8192, 4800), for every
pooling-window-count `m` dividing 8192 the pooling step succeeds with an
output of shape (m, 4800) whose row `i` is the arithmetic mean of the
consecutive `8192/m`-row slice starting at row `i * (8192/m)`; in
particular for `m = 32` each output row is the mean of its 256-row slice. -/
theorem pool_mean_rows (acts : List (List ℚ)) (m : ℕ)
    (hlen : acts.length = 8192) (hw : ∀ row ∈ acts, row.length = 4800)
    (hdvd : m ∣ 8192) :
    ∃ out, poolActs acts m = .ok out ∧ out.length = m
      ∧ (∀ row ∈ out, row.length = 4800)
      ∧ (∀ i < m, out.getD i [] = sliceMean 4800 acts i (8192 / m))
      ∧ (m = 32 → ∀ i < 32, out.getD i [] = sliceMean 4800 acts i 256) := by
  have hm0 : m ≠ 0 := by
    rintro rfl
    exact absurd (Nat.eq_zero_of_zero_dvd hdvd) (by norm_num)
  have htot : (acts.map List.length).sum = 8192 * 4800 := by
    have hrep : acts.map List.length = List.replicate 8192 4800 := by
      rw [List.eq_replicate_iff]
      refine ⟨by rw [List.length_map, hlen], ?_⟩
      intro b hb
      obtain ⟨row, hrow, hbeq⟩ := List.mem_map.mp hb
      exact hbeq ▸ hw row hrow
    rw [hrep, List.sum_replicate, smul_eq_mul]
  have hok : poolActs acts m = .ok (poolCore acts m) := by
    have h1 : ¬ acts.length % m ≠ 0 := by
      rw [hlen]
      exact not_not_intro (Nat.mod_eq_zero_of_dvd hdvd)
    have h2 : ¬ (acts.map List.length).sum % (m * 4800) ≠ 0 := by
      rw [htot]
      exact not_not_intro (Nat.mod_eq_zero_of_dvd (mul_dvd_mul_right hdvd 4800))
    unfold poolActs
    rw [if_neg hm0, if_neg h1, if_neg h2]
  have hkval : (acts.map List.length).sum / (m * 4800) = 8192 / m := by
    rw [htot]
    exact Nat.mul_div_mul_right 8192 m (by norm_num)
  have hmk : m * (8192 / m) = 8192 := Nat.mul_div_cancel' hdvd
  have hcore : poolCore acts m = (List.range m).map (fun i =>
      (List.range 4800).map (fun j =>
        ((List.range (8192 / m)).map (fun r =>
          acts.flatten.getD ((i * (8192 / m) + r) * 4800 + j) 0)).sum
          / ((8192 / m : ℕ) : ℚ))) := by
    simp only [poolCore]
    rw [hkval]
  have hrow : ∀ i < m, (poolCore acts m).getD i []
      = sliceMean 4800 acts i (8192 / m) := by
    intro i hi
    rw [hcore, getD_map_range _ _ m i hi]
    unfold sliceMean vecSum
    rw [List.map_map]
    apply List.map_congr_left
    intro j hj
    have hj' : j < 4800 := List.mem_range.mp hj
    simp only [Function.comp_apply]
    congr 1
    have hnk : i * (8192 / m) + (8192 / m) ≤ acts.length := by
      rw [hlen]
      calc i * (8192 / m) + (8192 / m) = (i + 1) * (8192 / m) := by ring
        _ ≤ m * (8192 / m) := Nat.mul_le_mul_right _ hi
        _ = 8192 := hmk
    rw [map_take_drop_eq_range (fun row => row.getD j 0) acts
      (i * (8192 / m)) (8192 / m) hnk]
    refine congrArg List.sum (List.map_congr_left ?_)
    intro r hr
    have hr' : r < 8192 / m := List.mem_range.mp hr
    have hq : i * (8192 / m) + r < acts.length := by
      rw [hlen]
      calc i * (8192 / m) + r < i * (8192 / m) + (8192 / m) := by omega
        _ = (i + 1) * (8192 / m) := by ring
        _ ≤ m * (8192 / m) := Nat.mul_le_mul_right _ hi
        _ = 8192 := hmk
    exact getD_flatten_width 4800 acts _ j hw (hlen ▸ hq) hj'
  refine ⟨poolCore acts m, hok, ?_, ?_, hrow, ?_⟩
  · simp [hcore]
  · intro row hrow'
    rw [hcore] at hrow'
    obtain ⟨i, _, hi⟩ := List.mem_map.mp hrow'
    rw [← hi]
    simp
  · rintro rfl i hi
    have h := hrow i hi
    norm_num at h
    norm_num
    exact h

/-- Witness for C1 on a concrete (8192, 4800) tensor with window-count 32. -/
theorem pool_mean_rows_witness :
    (List.replicate 8192 (List.replicate 4800 (0 : ℚ))).length = 8192
    ∧ (∀ row ∈ List.replicate 8192 (List.replicate 4800 (0 : ℚ)),
        row.length = 4800)
    ∧ (32 : ℕ) ∣ 8192
    ∧ ∃ out, poolActs (List.replicate 8192 (List.replicate 4800 (0 : ℚ))) 32
          = .ok out
        ∧ out.length = 32
        ∧ (∀ row ∈ out, row.length = 4800)
        ∧ (∀ i < 32, out.getD i []
            = sliceMean 4800 (List.replicate 8192 (List.replicate 4800 (0 : ℚ)))
                i (8192 / 32))
        ∧ ((32 : ℕ) = 32 → ∀ i < 32, out.getD i []
            = sliceMean 4800 (List.replicate 8192 (List.replicate 4800 (0 : ℚ)))
                i 256) :=
  ⟨by rw [List.length_replicate],
    fun row hrow => by rw [List.eq_of_mem_replicate hrow, List.length_replicate],
    by norm_num,
    pool_mean_rows (List.replicate 8192 (List.replicate 4800 (0 : ℚ))) 32
      (by rw [List.length_replicate])
      (fun row hrow => by
        rw [List.eq_of_mem_replicate hrow, List.length_replicate])
      (by norm_num)⟩

end Jukemir
